import Mathlib

/-!
Verification of the scroll-driven wave-transition engine.

Shallow embedding of the TypeScript sources: JavaScript numbers are modelled
as exact real numbers, DOM side effects as explicit effect lists, and the
scroll-gravity state machine as a tagged union with pure transition
functions.  Each definition mirrors one function of the source.
-/

noncomputable section

open scoped Classical

/-! ## utils/math.ts -/

/-- Number of binary search iterations for inverse easing approximation
(`BINARY_SEARCH_ITERATIONS` in `utils/math.ts`). -/
def BINARY_SEARCH_ITERATIONS : ℕ := 20

/-- `clamp(value, min, max) = Math.min(Math.max(value, min), max)`. -/
def clamp (value lo hi : ℝ) : ℝ := min (max value lo) hi

/-- `easeInOutCubic(t) = t < 0.5 ? 4*t*t*t : 1 - ((-2t+2)^3)/2`. -/
def easeInOutCubic (t : ℝ) : ℝ :=
  if t < 1/2 then 4 * t * t * t else 1 - (-2 * t + 2) ^ 3 / 2

/-- The binary-search loop of `inverseEaseInOutCubic`: starting from
`low = 0.5, high = 1`, each iteration takes the midpoint and keeps the half
whose easing still brackets the target.  `bsearchAux y n` is the `(low, high)`
pair after `n` iterations. -/
def bsearchAux (y : ℝ) : ℕ → ℝ × ℝ
  | 0 => (1/2, 1)
  | n + 1 =>
    let q := bsearchAux y n
    let mid := (q.1 + q.2) / 2
    if easeInOutCubic mid < y then (mid, q.2) else (q.1, mid)

/-- `inverseEaseInOutCubic` from `utils/math.ts`: clamps outside `[0,1]`,
analytic cube-root inverse `(y/4)^(1/3)` below `0.5`, binary search with
`BINARY_SEARCH_ITERATIONS` iterations on `[0.5, 1]`. -/
def inverseEaseInOutCubic (easedProgress : ℝ) : ℝ :=
  if easedProgress ≤ 0 then 0
  else if 1 ≤ easedProgress then 1
  else if easedProgress < 1/2 then (easedProgress / 4) ^ ((1 : ℝ)/3)
  else
    let q := bsearchAux easedProgress BINARY_SEARCH_ITERATIONS
    (q.1 + q.2) / 2

/-! ## SlideLayout -/

/-- `SlideLayout.transitionSize = totalTransitions > 0 ? 1/totalTransitions : 1`. -/
def getTransitionSize (totalTransitions : ℕ) : ℝ :=
  if 0 < totalTransitions then 1 / (totalTransitions : ℝ) else 1

/-- `SlideLayout.getSlideCenterProgress(i) = clamp(i / totalTransitions, 0, 1)`. -/
def getSlideCenterProgress (totalTransitions : ℕ) (slideIndex : ℕ) : ℝ :=
  clamp ((slideIndex : ℝ) / (totalTransitions : ℝ)) 0 1

/-- `SlideLayout.getAllSlideCenters()`: centers for slide indices
`0, …, totalSlides − 1`. -/
def getAllSlideCenters (totalSlides totalTransitions : ℕ) : List ℝ :=
  (List.range totalSlides).map (getSlideCenterProgress totalTransitions)

/-- Loop body of `SlideLayout.findSlideToSlideTowards`: fold over the centers
keeping the first one of minimal `|progress − center + bias|`.  The accumulator
`none` models the initial `minDistance = Infinity` (any finite distance beats
it). -/
def findAux (progress bias : ℝ) : List ℝ → ℝ → Option ℝ → ℝ × Option ℝ
  | [], best, md => (best, md)
  | c :: rest, best, md =>
    let d := |progress - c + bias|
    match md with
    | none => findAux progress bias rest c (some d)
    | some m =>
      if d < m then findAux progress bias rest c (some d)
      else findAux progress bias rest best (some m)

/-- `SlideLayout.findSlideToSlideTowards(currentProgress, bias)`:
`nearestCenter` starts at `0`, `minDistance` at `Infinity`. -/
def findSlideToSlideTowards (totalSlides totalTransitions : ℕ)
    (currentProgress bias : ℝ) : ℝ :=
  (findAux currentProgress bias (getAllSlideCenters totalSlides totalTransitions)
    0 none).1

/-! ## SegmentCalculator -/

/-- Result record of `SegmentCalculator.calculate` (`SegmentInfo` in
`types.ts`).  Indices are integers because the code stores `-1` for "no
active transition". -/
structure SegmentInfo where
  isInDwell : Bool
  currentSlideIndex : ℤ
  activeTransitionIndex : ℤ
  withinTransitionProgress : ℝ
  deriving DecidableEq

/-- The `for (let i = 0; i < totalTransitions; i++)` loop of
`SegmentCalculator.calculate`: `fuel` is the number of remaining iterations,
`i` the current index and `pos` the accumulated `position`; returns the
`(activeTransitionIndex, withinTransitionProgress)` pair of the early return,
or `none` when the loop falls through. -/
def segLoop (progress size : ℝ) : ℕ → ℕ → ℝ → Option (ℕ × ℝ)
  | 0, _, _ => none
  | fuel + 1, i, pos =>
    if progress < pos + size then some (i, (progress - pos) / size)
    else segLoop progress size fuel (i + 1) (pos + size)

/-- `SegmentCalculator.calculate(overallProgress)`: walk the transitions in
order; past the last transition end, dwell on the final slide with
`withinTransitionProgress = 1` and `activeTransitionIndex = totalTransitions − 1`. -/
def calculate (totalSlides totalTransitions : ℕ) (overallProgress : ℝ) :
    SegmentInfo :=
  match segLoop overallProgress (getTransitionSize totalTransitions)
      totalTransitions 0 0 with
  | some (i, w) => ⟨false, (i : ℤ), (i : ℤ), w⟩
  | none => ⟨true, (totalSlides : ℤ) - 1, (totalTransitions : ℤ) - 1, 1⟩

/-! ## constants.ts -/

/-- `WAVE_ANIMATION.START_POSITION_VW`. -/
def START_POSITION_VW : ℝ := 170

/-- `WAVE_ANIMATION.END_POSITION_VW`. -/
def END_POSITION_VW : ℝ := -115

/-- `WAVE_ANIMATION.TRAVEL_DISTANCE_VW = START_POSITION_VW - END_POSITION_VW`. -/
def TRAVEL_DISTANCE_VW : ℝ := START_POSITION_VW - END_POSITION_VW

/-- `WAVE_ANIMATION.OPACITY_FADE_START`. -/
def OPACITY_FADE_START : ℝ := 0.3

/-- `SCROLL_GRAVITY.MIN_SNAP_DISTANCE_PX`. -/
def MIN_SNAP_DISTANCE_PX : ℝ := 1

/-- Per-wave configuration record (`WaveConfig` in `types.ts`). -/
structure WaveConfig where
  stagger : ℝ
  opacity : ℝ
  phaseOffset : ℝ
  topOffset : ℝ
  startScaleFactor : ℝ
  endScaleFactor : ℝ
  slope : ℝ

/-- The numeric fields of `WAVE_TRANSITION_CONFIG` in `constants.ts`
(`waveImagePath` omitted: it is a string consumed only by DOM glue). -/
structure WaveTransitionConfig where
  leadingEdge : ℝ
  trailingEdge : ℝ
  resizeDebounceMs : ℝ
  undulationAmplitude : ℝ
  undulationFrequency : ℝ
  opacityTriggerVw : ℝ
  transitionBias : ℝ
  waves : List WaveConfig
  scrollIdleDelayMs : ℝ
  gravityAnimationDurationMs : ℝ

/-- `WAVE_TRANSITION_CONFIG` from `constants.ts`. -/
def WAVE_TRANSITION_CONFIG : WaveTransitionConfig where
  leadingEdge := 0.6
  trailingEdge := 0.8
  resizeDebounceMs := 100
  undulationAmplitude := 4
  undulationFrequency := 2.5
  opacityTriggerVw := 200
  transitionBias := 0.15
  waves :=
    [ ⟨-1, 1, Real.pi * 0, 20, 1.0, 0.0, 10⟩,
      ⟨-0.5, 1, Real.pi * 0.25, 10, 1.5, 0.0, 20.0⟩,
      ⟨0.0, 1, Real.pi * 0.0, -5, 2.5, 0.0, 30⟩ ]
  scrollIdleDelayMs := 50
  gravityAnimationDurationMs := 3000

/-! ## WavePositioner -/

/-- Wave-config lookup in `WavePositioner.updatePositions`:
`this.waves[waveIndex] || this.waves[this.waves.length - 1]`.  An
out-of-range index yields `undefined` (falsy), falling back to the last
entry; `none` models an access on an empty array. -/
def waveConfigFor (waves : List WaveConfig) (waveIndex : ℕ) : Option WaveConfig :=
  (waves.get? waveIndex).orElse (fun _ => waves.get? (waves.length - 1))

/-- The staggered progress computed in `WavePositioner.updatePositions`:
`clamp((withinProgress - stagger) / (1 - stagger), 0, 1)`. -/
def staggeredProgress (withinProgress stagger : ℝ) : ℝ :=
  clamp ((withinProgress - stagger) / (1 - stagger)) 0 1

/-- Per-element body of `WavePositioner.updatePositions`: given the wave's
transition index, the active transition index and the within-transition
progress, returns `(translateX, translateY, dynamicScale, dynamicOpacity)`
(vw/vh units, before pixel rounding). -/
def wavePose (undulationAmplitude undulationFrequency : ℝ) (cfg : WaveConfig)
    (transitionIndex : ℕ) (activeIndex : ℤ) (withinProgress : ℝ) :
    ℝ × ℝ × ℝ × ℝ :=
  if (transitionIndex : ℤ) < activeIndex then
    (END_POSITION_VW, 0, cfg.endScaleFactor, 0)
  else if (transitionIndex : ℤ) > activeIndex ∨ activeIndex < 0 then
    (START_POSITION_VW, 0, cfg.startScaleFactor, cfg.opacity)
  else
    let sp := staggeredProgress withinProgress cfg.stagger
    let easedProgress := easeInOutCubic sp
    let translateX := START_POSITION_VW - easedProgress * TRAVEL_DISTANCE_VW
    let undulationPhase :=
      sp * Real.pi * 2 * undulationFrequency + cfg.phaseOffset
    let translateY := Real.sin undulationPhase * undulationAmplitude
      + cfg.slope * sp
    let dynamicScale := cfg.startScaleFactor
      + sp * (cfg.endScaleFactor - cfg.startScaleFactor)
    let dynamicOpacity :=
      if sp < OPACITY_FADE_START then cfg.opacity
      else cfg.opacity * (1 - (sp - OPACITY_FADE_START) / (1 - OPACITY_FADE_START))
    (translateX, translateY, dynamicScale, dynamicOpacity)

/-! ## SlideVisibility -/

/-- `triggerEasedProgress` computed in `SlideVisibility.updateVisibility`:
`(START_POSITION_VW - opacityTriggerVw) / TRAVEL_DISTANCE_VW`. -/
def triggerEasedProgress (opacityTriggerVw : ℝ) : ℝ :=
  (START_POSITION_VW - opacityTriggerVw) / TRAVEL_DISTANCE_VW

/-- `hasReachedTrigger` in `SlideVisibility.updateVisibility`:
`easeInOutCubic(clamp(within, 0, 1)) >= triggerEasedProgress`. -/
def hasReachedTriggerAt (opacityTriggerVw withinProgress : ℝ) : Bool :=
  if triggerEasedProgress opacityTriggerVw
      ≤ easeInOutCubic (clamp withinProgress 0 1) then true else false

/-- `SlideVisibility.easedProgressToRaw`: the class's private copy is
line-for-line the same algorithm as `inverseEaseInOutCubic` in
`utils/math.ts`. -/
def easedProgressToRaw (easedProgress : ℝ) : ℝ :=
  inverseEaseInOutCubic easedProgress

/-- `SlideVisibility.calculateOutgoingOpacity(within, hasReachedTrigger,
triggerEasedProgress)`. -/
def calculateOutgoingOpacity (leadingEdge withinProgress : ℝ)
    (hasReachedTrigger : Bool) (trigger : ℝ) : ℝ :=
  if hasReachedTrigger = false then 1
  else if leadingEdge ≤ withinProgress then 0
  else
    let fadeStart := easedProgressToRaw trigger
    let fadeRange := leadingEdge - fadeStart
    if fadeRange ≤ 0 then 0
    else 1 - (withinProgress - fadeStart) / fadeRange

/-- `SlideVisibility.calculateIncomingOpacity(within, hasReachedTrigger)`. -/
def calculateIncomingOpacity (trailingEdge withinProgress : ℝ)
    (hasReachedTrigger : Bool) : ℝ :=
  if hasReachedTrigger = false then 0
  else if withinProgress ≤ trailingEdge then 0
  else if 1 ≤ withinProgress then 1
  else (withinProgress - trailingEdge) / (1 - trailingEdge)

/-- `SlideVisibility.calculateSlideOpacity` for one slide index. -/
def calculateSlideOpacity (leadingEdge trailingEdge : ℝ) (slideIndex : ℤ)
    (activeTransitionIndex : ℤ) (withinProgress : ℝ) (isInDwell : Bool)
    (currentSlideIndex : ℤ) (hasReachedTrigger : Bool) (trigger : ℝ) : ℝ :=
  if isInDwell then (if slideIndex = currentSlideIndex then 1 else 0)
  else if slideIndex = activeTransitionIndex then
    calculateOutgoingOpacity leadingEdge withinProgress hasReachedTrigger trigger
  else if slideIndex = activeTransitionIndex + 1 then
    calculateIncomingOpacity trailingEdge withinProgress hasReachedTrigger
  else 0

/-- The outgoing slide's opacity as `SlideVisibility.updateVisibility`
computes it under the shipped `WAVE_TRANSITION_CONFIG`
(`leadingEdge = 0.6`, `opacityTriggerVw = 200`). -/
def outgoingOpacityAt (withinProgress : ℝ) : ℝ :=
  calculateOutgoingOpacity WAVE_TRANSITION_CONFIG.leadingEdge withinProgress
    (hasReachedTriggerAt WAVE_TRANSITION_CONFIG.opacityTriggerVw withinProgress)
    (triggerEasedProgress WAVE_TRANSITION_CONFIG.opacityTriggerVw)

/-! ## ScrollGravity (part_006 state machine) -/

/-- `GravityState` discriminated union from `ScrollGravity.ts`. -/
inductive GravityState
  | idle
  | waiting (timeoutId : ℕ)
  | animating (frameId : Option ℕ) (startTime startScroll targetScroll : ℝ)
  deriving DecidableEq

/-- Externally observable actions of `ScrollGravity` on the browser:
timer/frame bookkeeping, listener management and programmatic scroll writes. -/
inductive GravityEffect
  | clearTimeoutEff (id : ℕ)
  | setTimeoutEff (id : ℕ)
  | cancelFrame (id : ℕ)
  | requestFrame (id : ℕ)
  | addInputListeners
  | removeInputListeners
  | removeTouchStateListeners
  | scrollTo (y : ℝ)
  deriving DecidableEq

/-- `ScrollGravity.transitionToIdle`: clears the idle timer in `waiting`,
cancels the frame (when present) and detaches the input listeners in
`animating`, then sets the state to `idle`. -/
def transitionToIdle : GravityState → GravityState × List GravityEffect
  | .idle => (.idle, [])
  | .waiting t => (.idle, [.clearTimeoutEff t])
  | .animating frameId _ _ _ =>
    (.idle,
      (match frameId with
        | some f => [GravityEffect.cancelFrame f]
        | none => []) ++ [.removeInputListeners])

/-- `ScrollGravity.transitionToWaiting`: clears an existing idle timer and
starts a fresh one (`newTimeoutId` is the id returned by `setTimeout`). -/
def transitionToWaiting (s : GravityState) (newTimeoutId : ℕ) :
    GravityState × List GravityEffect :=
  (GravityState.waiting newTimeoutId,
    (match s with
      | .waiting t => [GravityEffect.clearTimeoutEff t]
      | _ => []) ++ [.setTimeoutEff newTimeoutId])

/-- `ScrollGravity.onScroll`: ignored while animating, otherwise restart the
idle timer. -/
def gravityOnScroll (s : GravityState) (newTimeoutId : ℕ) :
    GravityState × List GravityEffect :=
  match s with
  | .animating _ _ _ _ => (s, [])
  | _ => transitionToWaiting s newTimeoutId

/-- `ScrollGravity.onUserInput`: while animating, transition to idle
(cancelling the frame and detaching input listeners); otherwise do nothing. -/
def onUserInput (s : GravityState) : GravityState × List GravityEffect :=
  match s with
  | .animating _ _ _ _ => transitionToIdle s
  | _ => (s, [])

/-- `ScrollGravity.destroy`: `transitionToIdle()` then remove the touch-state
listeners. -/
def gravityDestroy (s : GravityState) : GravityState × List GravityEffect :=
  let r := transitionToIdle s
  (r.1, r.2 ++ [.removeTouchStateListeners])

/-- `ScrollGravity.animationStep`: no-op unless animating; otherwise clamp
elapsed time into `[0,1]` of the duration, ease, write the interpolated
scroll offset, and either request the next frame or finish (detaching the
input listeners and returning to idle). -/
def animationStep (now duration : ℝ) (nextFrameId : ℕ) :
    GravityState → GravityState × List GravityEffect
  | .animating _ startTime startScroll targetScroll =>
    let progress := clamp ((now - startTime) / duration) 0 1
    let easedProgress := easeInOutCubic progress
    let currentScroll :=
      startScroll + (targetScroll - startScroll) * easedProgress
    if progress < 1 then
      (.animating (some nextFrameId) startTime startScroll targetScroll,
        [.scrollTo currentScroll, .requestFrame nextFrameId])
    else
      (.idle, [.scrollTo currentScroll, .removeInputListeners])
  | s => (s, [])

/-! ## WaveTransitionController (part_005) -/

/-- Controller-owned mutable fields relevant to listener/timer lifecycle
(`WaveTransitionController` in part_005). -/
structure CtrlState where
  ticking : Bool
  resizeTimeout : Option ℕ
  listenersAttached : Bool
  gravity : GravityState

/-- Externally observable actions of the controller. -/
inductive CtrlEffect
  | removeScrollResizeListeners
  | clearResizeTimeout (id : ℕ)
  | requestRenderFrame (id : ℕ)
  | gravityEffect (e : GravityEffect)
  deriving DecidableEq

/-- `WaveTransitionController.onScroll`: forwards to
`scrollGravity.onScroll()`, then — when `ticking` is `false` — issues
`requestAnimationFrame(() => this.updateTransitions())` and sets `ticking`.
The returned frame id (`newFrameId`) is NOT stored anywhere in the
controller. -/
def ctrlOnScroll (s : CtrlState) (newTimeoutId newFrameId : ℕ) :
    CtrlState × List CtrlEffect :=
  let g := gravityOnScroll s.gravity newTimeoutId
  if s.ticking then
    (⟨true, s.resizeTimeout, s.listenersAttached, g.1⟩,
      g.2.map CtrlEffect.gravityEffect)
  else
    (⟨true, s.resizeTimeout, s.listenersAttached, g.1⟩,
      g.2.map CtrlEffect.gravityEffect ++ [.requestRenderFrame newFrameId])

/-- `WaveTransitionController.destroy`: run the listener cleanup (when
attached), clear the resize timeout (when set), and call
`scrollGravity.destroy()`.  No `cancelAnimationFrame` call appears in the
source. -/
def ctrlDestroy (s : CtrlState) : CtrlState × List CtrlEffect :=
  let le : List CtrlEffect :=
    if s.listenersAttached then [.removeScrollResizeListeners] else []
  let te : List CtrlEffect :=
    match s.resizeTimeout with
    | some t => [CtrlEffect.clearResizeTimeout t]
    | none => []
  let g := gravityDestroy s.gravity
  (⟨s.ticking, s.resizeTimeout, false, g.1⟩,
    le ++ te ++ g.2.map CtrlEffect.gravityEffect)

/-- The render-frame ids an effect list schedules
(`requestAnimationFrame` calls made by the controller itself). -/
def framesRequested : List CtrlEffect → List ℕ
  | [] => []
  | .requestRenderFrame i :: es => i :: framesRequested es
  | _ :: es => framesRequested es

/-! ## Helper lemmas -/

/-- The loop of `calculate` falls through when the progress is at or past the
end of the last remaining transition. -/
theorem segLoop_none_of_ge (progress size : ℝ) :
    ∀ (fuel i : ℕ) (pos : ℝ), (0 : ℝ) < size →
      pos + (fuel : ℝ) * size ≤ progress →
      segLoop progress size fuel i pos = none := by
  intro fuel
  induction fuel with
  | zero => intro i pos _ _; rfl
  | succ n ih =>
    intro i pos hsz h
    have h0 : (0 : ℝ) ≤ (n : ℝ) * size := by positivity
    have hps : pos + size ≤ progress := by push_cast at h; nlinarith
    rw [segLoop, if_neg (by linarith)]
    exact ih (i + 1) (pos + size) hsz (by push_cast at h ⊢; nlinarith)

/-- The loop of `calculate` returns early at the transition whose span
contains the progress. -/
theorem segLoop_some_of (progress size : ℝ) :
    ∀ (fuel i k : ℕ) (pos : ℝ), (0 : ℝ) < size → k < fuel →
      pos + (k : ℝ) * size ≤ progress →
      progress < pos + ((k : ℝ) + 1) * size →
      segLoop progress size fuel i pos
        = some (i + k, (progress - (pos + (k : ℝ) * size)) / size) := by
  intro fuel
  induction fuel with
  | zero => intro i k pos _ hk; exact absurd hk (Nat.not_lt_zero k)
  | succ n ih =>
    intro i k pos hsz hk h1 h2
    cases k with
    | zero =>
      rw [segLoop, if_pos (by push_cast at h2; linarith)]
      norm_num
    | succ k' =>
      have hks : (0 : ℝ) ≤ (k' : ℝ) * size := by positivity
      have hps : pos + size ≤ progress := by push_cast at h1; nlinarith
      rw [segLoop, if_neg (not_lt.2 hps)]
      have hrec := ih (i + 1) k' (pos + size) hsz (Nat.lt_of_succ_lt_succ hk)
        (by push_cast at h1 ⊢; nlinarith) (by push_cast at h2 ⊢; nlinarith)
      rw [hrec]
      have e1 : i + 1 + k' = i + (k' + 1) := by omega
      have e2 : pos + size + (k' : ℝ) * size
          = pos + ((k' + 1 : ℕ) : ℝ) * size := by push_cast; ring
      rw [e1, e2]

/-- With at least one transition, the transition size is `1 / T`. -/
theorem getTransitionSize_of_pos (T : ℕ) (hT : 0 < T) :
    getTransitionSize T = 1 / (T : ℝ) := if_pos hT

/-- Closed form of `calculate` strictly before the end of scroll: the active
transition is `⌊p·T⌋` and the within-progress is the fractional part
`p·T − ⌊p·T⌋`. -/
theorem calculate_lt_one (S T : ℕ) (hT : 0 < T) (p : ℝ) (h0 : 0 ≤ p)
    (h1 : p < 1) :
    calculate S T p
      = ⟨false, (⌊p * (T : ℝ)⌋₊ : ℤ), (⌊p * (T : ℝ)⌋₊ : ℤ),
          p * (T : ℝ) - (⌊p * (T : ℝ)⌋₊ : ℝ)⟩ := by
  have hTpos : (0 : ℝ) < (T : ℝ) := by exact_mod_cast hT
  have hpt0 : 0 ≤ p * (T : ℝ) := mul_nonneg h0 hTpos.le
  have hk1 : (⌊p * (T : ℝ)⌋₊ : ℝ) ≤ p * (T : ℝ) := Nat.floor_le hpt0
  have hk2 : p * (T : ℝ) < (⌊p * (T : ℝ)⌋₊ : ℝ) + 1 := Nat.lt_floor_add_one _
  have hkT : ⌊p * (T : ℝ)⌋₊ < T := by
    refine (Nat.floor_lt hpt0).2 ?_
    nlinarith
  have hsz : (0 : ℝ) < 1 / (T : ℝ) := by positivity
  unfold calculate
  rw [getTransitionSize_of_pos T hT,
    segLoop_some_of p (1 / (T : ℝ)) T 0 ⌊p * (T : ℝ)⌋₊ 0 hsz hkT
      (by rw [zero_add, mul_one_div, div_le_iff hTpos]; exact hk1)
      (by rw [zero_add, add_mul, one_mul, mul_one_div]
          rw [show (⌊p * (T : ℝ)⌋₊ : ℝ) / (T : ℝ) + 1 / (T : ℝ)
              = ((⌊p * (T : ℝ)⌋₊ : ℝ) + 1) / (T : ℝ) by ring]
          rw [lt_div_iff hTpos]
          linarith)]
  have hT' : (T : ℝ) ≠ 0 := ne_of_gt hTpos
  simp only [SegmentInfo.mk.injEq]
  refine ⟨trivial, by norm_num, by norm_num, ?_⟩
  field_simp
  try ring

/-- Closed form of `calculate` at (or past) the end of scroll: the final
dwell record. -/
theorem calculate_ge_one (S T : ℕ) (hT : 0 < T) (p : ℝ) (h1 : 1 ≤ p) :
    calculate S T p = ⟨true, (S : ℤ) - 1, (T : ℤ) - 1, 1⟩ := by
  have hTpos : (0 : ℝ) < (T : ℝ) := by exact_mod_cast hT
  have hsz : (0 : ℝ) < 1 / (T : ℝ) := by positivity
  unfold calculate
  rw [getTransitionSize_of_pos T hT,
    segLoop_none_of_ge p (1 / (T : ℝ)) T 0 0 hsz
      (by rw [zero_add, mul_one_div, div_self (ne_of_gt hTpos)]; exact h1)]

/-- With zero transitions the loop never runs: a single dwell covers the
whole range. -/
theorem calculate_zero_T (S : ℕ) (p : ℝ) :
    calculate S 0 p = ⟨true, (S : ℤ) - 1, -1, 1⟩ := by
  show (⟨true, (S : ℤ) - 1, (0 : ℤ) - 1, 1⟩ : SegmentInfo) = _
  norm_num


/-- `easeInOutCubic` maps `[0,1]` into `[0,1]`. -/
theorem easeInOutCubic_mem (t : ℝ) (h0 : 0 ≤ t) (h1 : t ≤ 1) :
    0 ≤ easeInOutCubic t ∧ easeInOutCubic t ≤ 1 := by
  unfold easeInOutCubic
  split_ifs with h
  · have hcube : 0 ≤ t * t * t := mul_nonneg (mul_nonneg h0 h0) h0
    have h2 : 0 ≤ 1 - 2 * t := by linarith
    have h3 : 0 ≤ (1 - 2 * t) * (1 + 2 * t + 4 * (t * t)) :=
      mul_nonneg h2 (by nlinarith [mul_nonneg h0 h0])
    constructor
    · linarith
    · nlinarith [h3, hcube]
  · have hu0 : 0 ≤ -2 * t + 2 := by linarith
    have hu1 : -2 * t + 2 ≤ 1 := by linarith
    have hcube : 0 ≤ (-2 * t + 2) * (-2 * t + 2) * (-2 * t + 2) :=
      mul_nonneg (mul_nonneg hu0 hu0) hu0
    have h3 : 0 ≤ (1 - (-2 * t + 2))
        * (1 + (-2 * t + 2) + (-2 * t + 2) * (-2 * t + 2)) :=
      mul_nonneg (by linarith) (by nlinarith [mul_nonneg hu0 hu0])
    constructor
    · nlinarith [h3]
    · nlinarith [hcube]

/-- `clamp` lands in the requested interval. -/
theorem clamp_mem (v lo hi : ℝ) (h : lo ≤ hi) :
    lo ≤ clamp v lo hi ∧ clamp v lo hi ≤ hi :=
  ⟨le_min (le_max_right v lo) h, min_le_right _ _⟩

/-- `clamp` is the identity inside the interval. -/
theorem clamp_eq_self (v lo hi : ℝ) (h0 : lo ≤ v) (h1 : v ≤ hi) :
    clamp v lo hi = v := by
  unfold clamp
  rw [max_eq_left h0, min_eq_left h1]

/-- Under the shipped configuration (`opacityTriggerVw = 200 >
START_POSITION_VW`) the opacity trigger is negative, hence always reached,
and the outgoing fade runs linearly from `0` to `leadingEdge = 0.6`. -/
theorem outgoingOpacityAt_eq (w : ℝ) :
    outgoingOpacityAt w = if (0.6 : ℝ) ≤ w then 0 else 1 - w / 0.6 := by
  have htrig : triggerEasedProgress WAVE_TRANSITION_CONFIG.opacityTriggerVw
      = -30 / 285 := by
    norm_num [triggerEasedProgress, WAVE_TRANSITION_CONFIG, START_POSITION_VW,
      TRAVEL_DISTANCE_VW, END_POSITION_VW]
  have hcl := clamp_mem w 0 1 (by norm_num)
  have hez := easeInOutCubic_mem (clamp w 0 1) hcl.1 hcl.2
  have hreach : hasReachedTriggerAt WAVE_TRANSITION_CONFIG.opacityTriggerVw w
      = true := by
    unfold hasReachedTriggerAt
    rw [htrig, if_pos (by linarith [hez.1])]
  unfold outgoingOpacityAt calculateOutgoingOpacity
  rw [hreach, htrig]
  have hraw : easedProgressToRaw (-30 / 285) = 0 := by
    unfold easedProgressToRaw inverseEaseInOutCubic
    rw [if_pos (by norm_num)]
  simp only [Bool.true_eq_false, if_false]
  have hle : WAVE_TRANSITION_CONFIG.leadingEdge = (0.6 : ℝ) := rfl
  rw [hle, hraw]
  norm_num

/-! ## Claim C1 (amended): segment invariants -/

/-- C1 (amended): for every `overallProgress ∈ [0,1]` the Segment
Calculator's `withinTransitionProgress` lies in `[0,1]` and at least one of
`isInDwell` / a valid `activeTransitionIndex ∈ [0, totalTransitions)` holds;
both hold simultaneously exactly when `totalTransitions ≥ 1` and the
progress is exactly `1` (the final-slide dwell also reports the last
transition index). -/
theorem segment_info_bounds (S T : ℕ) (p : ℝ) (h0 : 0 ≤ p) (h1 : p ≤ 1) :
    0 ≤ (calculate S T p).withinTransitionProgress ∧
    (calculate S T p).withinTransitionProgress ≤ 1 ∧
    ((calculate S T p).isInDwell = true ∨
      (0 ≤ (calculate S T p).activeTransitionIndex ∧
        (calculate S T p).activeTransitionIndex < (T : ℤ))) ∧
    (((calculate S T p).isInDwell = true ∧
        0 ≤ (calculate S T p).activeTransitionIndex ∧
        (calculate S T p).activeTransitionIndex < (T : ℤ))
      ↔ (0 < T ∧ p = 1)) := by
  rcases Nat.eq_zero_or_pos T with hT | hT
  · subst hT
    rw [calculate_zero_T]
    norm_num
  · rcases lt_or_eq_of_le h1 with hlt | heq
    · rw [calculate_lt_one S T hT p h0 hlt]
      have hTpos : (0 : ℝ) < (T : ℝ) := by exact_mod_cast hT
      have hpt0 : 0 ≤ p * (T : ℝ) := mul_nonneg h0 hTpos.le
      have hk1 : (⌊p * (T : ℝ)⌋₊ : ℝ) ≤ p * (T : ℝ) := Nat.floor_le hpt0
      have hk2 : p * (T : ℝ) < (⌊p * (T : ℝ)⌋₊ : ℝ) + 1 :=
        Nat.lt_floor_add_one _
      have hkT : ⌊p * (T : ℝ)⌋₊ < T := (Nat.floor_lt hpt0).2 (by nlinarith)
      refine ⟨by simpa using by linarith, by simpa using by linarith, ?_, ?_⟩
      · refine Or.inr ⟨?_, ?_⟩
        · dsimp only
          positivity
        · dsimp only
          exact_mod_cast hkT
      · dsimp only
        constructor
        · rintro ⟨hfalse, -⟩; exact absurd hfalse (by simp)
        · rintro ⟨-, hp1⟩; exact absurd hp1 (ne_of_lt hlt)
    · subst heq
      rw [calculate_ge_one S T hT 1 le_rfl]
      have hT1 : (1 : ℤ) ≤ (T : ℤ) := by exact_mod_cast hT
      refine ⟨by norm_num, by norm_num, Or.inl rfl, ?_⟩
      dsimp only
      constructor
      · rintro -; exact ⟨hT, rfl⟩
      · rintro -; exact ⟨rfl, by omega, by omega⟩

/-- C1 counterexample: at `overallProgress = 1` with 3 slides and 2
transitions, `isInDwell` is true AND `activeTransitionIndex = 1` is a valid
index in `[0, 2)` — the claimed "exactly one, never both" is violated. -/
theorem segment_dwell_and_valid_index_both :
    (calculate 3 2 1).isInDwell = true ∧
    0 ≤ (calculate 3 2 1).activeTransitionIndex ∧
    (calculate 3 2 1).activeTransitionIndex < 2 := by
  rw [calculate_ge_one 3 2 (by norm_num) 1 le_rfl]
  norm_num

/-- C1 witness: the amended theorem applied at `S = 3, T = 2, p = 1/2`. -/
theorem segment_info_bounds_witness :
    0 ≤ (calculate 3 2 (1/2)).withinTransitionProgress :=
  (segment_info_bounds 3 2 (1/2) (by norm_num) (by norm_num)).1

/-! ## Claim C8: zero transitions are safe -/

/-- C8: with `totalTransitions = 0` no division by zero occurs: the slide
layout's transition span is `1`, and for every `overallProgress ∈ [0,1]` the
Segment Calculator returns the single whole-range dwell segment
(`isInDwell = true`, `withinTransitionProgress = 1`). -/
theorem zero_transitions_single_dwell (S : ℕ) (p : ℝ) (h0 : 0 ≤ p)
    (h1 : p ≤ 1) :
    getTransitionSize 0 = 1 ∧
    calculate S 0 p = ⟨true, (S : ℤ) - 1, -1, 1⟩ :=
  ⟨by simp [getTransitionSize], calculate_zero_T S p⟩

/-- C8 witness: the theorem applied at `S = 3, p = 1/2`. -/
theorem zero_transitions_single_dwell_witness :
    getTransitionSize 0 = 1 ∧
    calculate 3 0 (1/2) = ⟨true, (3 : ℤ) - 1, -1, 1⟩ :=
  zero_transitions_single_dwell 3 (1/2) (by norm_num) (by norm_num)

/-! ## Claim C6: monotonicity -/

/-- C6: increasing overall progress never decreases the active transition
index, and — under the shipped configuration — increasing within-transition
progress never decreases the outgoing slide's fade-out amount
(`1 − opacity`). -/
theorem active_index_and_fadeout_monotone :
    (∀ (S T : ℕ) (p1 p2 : ℝ), 0 ≤ p1 → p1 ≤ p2 → p2 ≤ 1 →
      (calculate S T p1).activeTransitionIndex
        ≤ (calculate S T p2).activeTransitionIndex) ∧
    (∀ w1 w2 : ℝ, 0 ≤ w1 → w1 ≤ w2 → w2 ≤ 1 →
      1 - outgoingOpacityAt w1 ≤ 1 - outgoingOpacityAt w2) := by
  constructor
  · intro S T p1 p2 h0 h12 h2
    rcases Nat.eq_zero_or_pos T with hT | hT
    · subst hT
      rw [calculate_zero_T, calculate_zero_T]
    · have hTpos : (0 : ℝ) < (T : ℝ) := by exact_mod_cast hT
      have h0' : 0 ≤ p2 := le_trans h0 h12
      rcases lt_or_eq_of_le h2 with h2l | h2e
      · have h1l : p1 < 1 := lt_of_le_of_lt h12 h2l
        rw [calculate_lt_one S T hT p1 h0 h1l,
          calculate_lt_one S T hT p2 h0' h2l]
        have hmono : ⌊p1 * (T : ℝ)⌋₊ ≤ ⌊p2 * (T : ℝ)⌋₊ :=
          Nat.floor_le_floor (mul_le_mul_of_nonneg_right h12 hTpos.le)
        dsimp only
        exact_mod_cast hmono
      · subst h2e
        rw [calculate_ge_one S T hT 1 le_rfl]
        rcases lt_or_eq_of_le h12 with h1l | h1e
        · rw [calculate_lt_one S T hT p1 h0 h1l]
          have hpt0 : 0 ≤ p1 * (T : ℝ) := mul_nonneg h0 hTpos.le
          have hkT : ⌊p1 * (T : ℝ)⌋₊ < T := (Nat.floor_lt hpt0).2 (by nlinarith)
          have : (⌊p1 * (T : ℝ)⌋₊ : ℤ) < (T : ℤ) := by exact_mod_cast hkT
          simp only [SegmentInfo.activeTransitionIndex]
          omega
        · subst h1e
          rw [calculate_ge_one S T hT 1 le_rfl]
  · intro w1 w2 h0 h12 h2
    rw [outgoingOpacityAt_eq w1, outgoingOpacityAt_eq w2]
    split_ifs with ha hb hb
    · linarith
    · push_neg at hb; linarith
    · push_neg at ha
      have h1' : w1 / 0.6 ≤ 1 :=
        (div_le_one (by norm_num : (0 : ℝ) < 0.6)).2 (by linarith)
      linarith
    · push_neg at ha hb
      have h4 : w1 / 0.6 ≤ w2 / 0.6 :=
        (div_le_div_right (by norm_num : (0 : ℝ) < 0.6)).2 h12
      linarith

/-- C6 witness: both parts applied at concrete inputs. -/
theorem active_index_and_fadeout_monotone_witness :
    (calculate 3 2 (1/4)).activeTransitionIndex
      ≤ (calculate 3 2 (3/4)).activeTransitionIndex ∧
    1 - outgoingOpacityAt (1/4) ≤ 1 - outgoingOpacityAt (1/2) :=
  ⟨active_index_and_fadeout_monotone.1 3 2 (1/4) (3/4) (by norm_num)
      (by norm_num) (by norm_num),
    active_index_and_fadeout_monotone.2 (1/4) (1/2) (by norm_num)
      (by norm_num) (by norm_num)⟩

/-! ## Claim C9: wave-config fallback -/

/-- C9: for a non-empty `waves` array, any wave index at or past the end of
the array resolves to the last configured entry
(`this.waves[waveIndex] || this.waves[this.waves.length - 1]`). -/
theorem wave_config_fallback (waves : List WaveConfig) (i : ℕ)
    (hne : waves ≠ []) (hi : waves.length ≤ i) :
    waveConfigFor waves i = some (waves.getLast hne) := by
  have hnone : waves.get? i = none := List.get?_eq_none.2 hi
  have hlen : 0 < waves.length := List.length_pos.2 hne
  unfold waveConfigFor
  rw [hnone]
  show waves.get? (waves.length - 1) = some (waves.getLast hne)
  rw [List.getLast_eq_get]
  exact List.get?_eq_get (by omega)

/-- C9 witness: the theorem applied to the shipped three-wave configuration
at out-of-range index 5. -/
theorem wave_config_fallback_witness :
    waveConfigFor WAVE_TRANSITION_CONFIG.waves 5
      = some (WAVE_TRANSITION_CONFIG.waves.getLast
          (by simp [WAVE_TRANSITION_CONFIG])) :=
  wave_config_fallback WAVE_TRANSITION_CONFIG.waves 5
    (by simp [WAVE_TRANSITION_CONFIG]) (by simp [WAVE_TRANSITION_CONFIG])

/-! ## Claim C5: gravity interruption -/

/-- C5: in the `Animating` state, a user-input event transitions the machine
to `Idle`, cancels the pending animation frame (when one is recorded) and
detaches the input listeners, and a subsequent animation step from the
resulting state performs no scroll write. -/
theorem user_input_halts_animation (frameId : Option ℕ)
    (startTime startScroll targetScroll : ℝ) :
    (onUserInput (.animating frameId startTime startScroll targetScroll)).1
        = GravityState.idle ∧
    GravityEffect.removeInputListeners
        ∈ (onUserInput (.animating frameId startTime startScroll targetScroll)).2 ∧
    (∀ f, frameId = some f →
      GravityEffect.cancelFrame f
        ∈ (onUserInput (.animating frameId startTime startScroll targetScroll)).2) ∧
    (∀ (now duration : ℝ) (nextFrameId : ℕ) (y : ℝ),
      GravityEffect.scrollTo y
        ∉ (animationStep now duration nextFrameId
            (onUserInput (.animating frameId startTime startScroll targetScroll)).1).2) := by
  cases frameId with
  | none =>
    refine ⟨rfl, by simp [onUserInput, transitionToIdle], ?_, ?_⟩
    · intro f hf; exact absurd hf (by simp)
    · intro now duration nextFrameId y
      simp [onUserInput, transitionToIdle, animationStep]
  | some f0 =>
    refine ⟨rfl, by simp [onUserInput, transitionToIdle], ?_, ?_⟩
    · intro f hf
      have : f = f0 := by injection hf.symm
      subst this
      simp [onUserInput, transitionToIdle]
    · intro now duration nextFrameId y
      simp [onUserInput, transitionToIdle, animationStep]

/-- C5 witness: the theorem applied at a concrete animating state, with the
frame-id hypothesis discharged by `rfl`. -/
theorem user_input_halts_animation_witness :
    GravityEffect.cancelFrame 7
      ∈ (onUserInput (.animating (some 7) 0 0 100)).2 :=
  (user_input_halts_animation (some 7) 0 0 100).2.2.1 7 rfl

/-! ## Claim C2: destroy and the pending render frame -/

/-- C2 evaluation: starting from a fresh controller (ticking `false`, gravity
idle), a scroll event schedules render frame `5`, and the effect list of the
subsequent `destroy()` contains no `cancelAnimationFrame` at all — the
render frame scheduled by `onScroll` survives teardown. -/
theorem destroy_misses_render_frame :
    5 ∈ framesRequested (ctrlOnScroll ⟨false, none, true, .idle⟩ 9 5).2 ∧
    (∀ f, CtrlEffect.gravityEffect (.cancelFrame f)
      ∉ (ctrlDestroy (ctrlOnScroll ⟨false, none, true, .idle⟩ 9 5).1).2) := by
  constructor
  · simp [ctrlOnScroll, gravityOnScroll, transitionToWaiting, framesRequested]
  · intro f
    simp [ctrlOnScroll, ctrlDestroy, gravityOnScroll, transitionToWaiting,
      gravityDestroy, transitionToIdle]

/-! ## Claim C7 (corrected): stagger is consumed raw -/

/-- C7 counterexample: the first shipped wave's `stagger` is `-1`, outside
`[0,1]`, and the staggered-progress computation consumes it unclamped — the
result differs from what a use-site clamp of the field would produce. -/
theorem stagger_consumed_unvalidated :
    (WAVE_TRANSITION_CONFIG.waves.get? 0).map WaveConfig.stagger
        = some (-1) ∧
    ¬ (0 : ℝ) ≤ -1 ∧
    staggeredProgress (1/2) (-1)
      ≠ staggeredProgress (1/2) (clamp (-1) 0 1) := by
  refine ⟨rfl, by norm_num, ?_⟩
  have h1 : staggeredProgress (1/2) (-1) = 3/4 := by
    unfold staggeredProgress
    rw [show ((1:ℝ)/2 - -1) / (1 - -1) = 3/4 by norm_num]
    exact clamp_eq_self _ 0 1 (by norm_num) (by norm_num)
  have h2 : clamp (-1 : ℝ) 0 1 = 0 := by
    unfold clamp
    rw [max_eq_right (by norm_num : (-1:ℝ) ≤ 0), min_eq_left (by norm_num)]
  have h3 : staggeredProgress (1/2) 0 = 1/2 := by
    unfold staggeredProgress
    rw [show ((1:ℝ)/2 - 0) / (1 - 0) = 1/2 by norm_num]
    exact clamp_eq_self _ 0 1 (by norm_num) (by norm_num)
  rw [h1, h2, h3]
  norm_num

/-- C7 (amended): only the derived staggered progress is clamped into
`[0,1]` (for any `stagger < 1`); the raw fractional fields themselves are
not validated at use sites, and the shipped configuration carries staggers
`-1` and `-0.5` outside `[0,1]`. -/
theorem staggered_progress_clamped :
    (∀ withinProgress stagger : ℝ, stagger < 1 →
      0 ≤ staggeredProgress withinProgress stagger ∧
      staggeredProgress withinProgress stagger ≤ 1) ∧
    WAVE_TRANSITION_CONFIG.waves.map WaveConfig.stagger = [-1, -0.5, 0] := by
  constructor
  · intro withinProgress stagger _
    exact clamp_mem _ 0 1 (by norm_num)
  · norm_num [WAVE_TRANSITION_CONFIG]

/-- C7 witness: the amended theorem's clamp bound at `within = 1/2`,
`stagger = -1`. -/
theorem staggered_progress_clamped_witness :
    0 ≤ staggeredProgress (1/2) (-1) ∧ staggeredProgress (1/2) (-1) ≤ 1 :=
  staggered_progress_clamped.1 (1/2) (-1) (by norm_num)

/-! ## Claim C10: wave pose bounds -/

/-- C10: for every transition index, active index and within-progress, and
every wave config with `stagger < 1` and `opacity ∈ [0,1]`, the computed
`translateX` lies in `[END_POSITION_VW, START_POSITION_VW]` and the computed
opacity lies in `[0, opacity]`, in all three branches. -/
theorem wave_pose_bounds (undulationAmplitude undulationFrequency : ℝ)
    (cfg : WaveConfig) (transitionIndex : ℕ) (activeIndex : ℤ)
    (withinProgress : ℝ) (hs : cfg.stagger < 1) (ho0 : 0 ≤ cfg.opacity)
    (ho1 : cfg.opacity ≤ 1) :
    END_POSITION_VW
        ≤ (wavePose undulationAmplitude undulationFrequency cfg
            transitionIndex activeIndex withinProgress).1 ∧
    (wavePose undulationAmplitude undulationFrequency cfg
        transitionIndex activeIndex withinProgress).1 ≤ START_POSITION_VW ∧
    0 ≤ (wavePose undulationAmplitude undulationFrequency cfg
        transitionIndex activeIndex withinProgress).2.2.2 ∧
    (wavePose undulationAmplitude undulationFrequency cfg
        transitionIndex activeIndex withinProgress).2.2.2 ≤ cfg.opacity := by
  have hsp0 : 0 ≤ staggeredProgress withinProgress cfg.stagger :=
    (clamp_mem _ 0 1 (by norm_num)).1
  have hsp1 : staggeredProgress withinProgress cfg.stagger ≤ 1 :=
    (clamp_mem _ 0 1 (by norm_num)).2
  have hez := easeInOutCubic_mem (staggeredProgress withinProgress cfg.stagger)
    hsp0 hsp1
  have htx1 : END_POSITION_VW ≤ START_POSITION_VW
      - easeInOutCubic (staggeredProgress withinProgress cfg.stagger)
        * TRAVEL_DISTANCE_VW := by
    have : TRAVEL_DISTANCE_VW = 285 := by
      norm_num [TRAVEL_DISTANCE_VW, START_POSITION_VW, END_POSITION_VW]
    rw [this]
    norm_num [END_POSITION_VW, START_POSITION_VW]
    nlinarith [hez.1, hez.2]
  have htx2 : START_POSITION_VW
      - easeInOutCubic (staggeredProgress withinProgress cfg.stagger)
        * TRAVEL_DISTANCE_VW ≤ START_POSITION_VW := by
    have : TRAVEL_DISTANCE_VW = 285 := by
      norm_num [TRAVEL_DISTANCE_VW, START_POSITION_VW, END_POSITION_VW]
    rw [this]
    norm_num [START_POSITION_VW]
    nlinarith [hez.1, hez.2]
  have hes : END_POSITION_VW ≤ START_POSITION_VW := by
    norm_num [END_POSITION_VW, START_POSITION_VW]
  unfold wavePose
  split_ifs with h1 h2
  · exact ⟨le_refl _, hes, le_refl _, ho0⟩
  · exact ⟨hes, le_refl _, ho0, le_refl _⟩
  · dsimp only
    split_ifs with h3
    · exact ⟨htx1, htx2, ho0, le_refl _⟩
    · push_neg at h3
      set sp := staggeredProgress withinProgress cfg.stagger
      have hfade0 : 0 ≤ (sp - OPACITY_FADE_START) / (1 - OPACITY_FADE_START) :=
        div_nonneg (by linarith) (by norm_num [OPACITY_FADE_START])
      have hfade1 : (sp - OPACITY_FADE_START) / (1 - OPACITY_FADE_START) ≤ 1 := by
        rw [div_le_one (by norm_num [OPACITY_FADE_START])]
        norm_num [OPACITY_FADE_START]
        linarith [hsp1]
      refine ⟨htx1, htx2, ?_, ?_⟩
      · exact mul_nonneg ho0 (by linarith)
      · nlinarith [mul_nonneg ho0 hfade0]

/-- C10 witness: the bounds theorem applied to the first shipped wave config
on its active transition at mid progress. -/
theorem wave_pose_bounds_witness :
    END_POSITION_VW
        ≤ (wavePose 4 2.5 ⟨-1, 1, Real.pi * 0, 20, 1.0, 0.0, 10⟩ 0 0 (1/2)).1 ∧
    (wavePose 4 2.5 ⟨-1, 1, Real.pi * 0, 20, 1.0, 0.0, 10⟩ 0 0 (1/2)).1
        ≤ START_POSITION_VW ∧
    0 ≤ (wavePose 4 2.5 ⟨-1, 1, Real.pi * 0, 20, 1.0, 0.0, 10⟩ 0 0 (1/2)).2.2.2 ∧
    (wavePose 4 2.5 ⟨-1, 1, Real.pi * 0, 20, 1.0, 0.0, 10⟩ 0 0 (1/2)).2.2.2 ≤ 1 :=
  wave_pose_bounds 4 2.5 ⟨-1, 1, Real.pi * 0, 20, 1.0, 0.0, 10⟩ 0 0 (1/2)
    (by norm_num) (by norm_num) (by norm_num)

/-! ## Claim C4: gravity target selection -/

/-- Invariant of the `findSlideToSlideTowards` fold: once the running
minimum is tied to the running best, the final best is drawn from the
candidates and minimizes the biased distance over all of them. -/
theorem findAux_min (progress bias : ℝ) :
    ∀ (l : List ℝ) (best m : ℝ), m = |progress - best + bias| →
      ((findAux progress bias l best (some m)).1 = best ∨
        (findAux progress bias l best (some m)).1 ∈ l) ∧
      |progress - (findAux progress bias l best (some m)).1 + bias| ≤ m ∧
      ∀ c ∈ l, |progress - (findAux progress bias l best (some m)).1 + bias|
        ≤ |progress - c + bias| := by
  intro l
  induction l with
  | nil =>
    intro best m hm
    refine ⟨Or.inl rfl, le_of_eq hm.symm, ?_⟩
    intro c hc
    exact absurd hc (List.not_mem_nil c)
  | cons c0 rest ih =>
    intro best m hm
    have hstep : findAux progress bias (c0 :: rest) best (some m)
        = if |progress - c0 + bias| < m
          then findAux progress bias rest c0 (some |progress - c0 + bias|)
          else findAux progress bias rest best (some m) := rfl
    rw [hstep]
    by_cases hd : |progress - c0 + bias| < m
    · rw [if_pos hd]
      obtain ⟨hmem, hle, hall⟩ := ih c0 |progress - c0 + bias| rfl
      refine ⟨?_, le_trans hle (le_of_lt hd), ?_⟩
      · rcases hmem with h | h
        · exact Or.inr (by rw [h]; exact List.mem_cons_self c0 rest)
        · exact Or.inr (List.mem_cons_of_mem c0 h)
      · intro c hc
        rcases List.mem_cons.1 hc with rfl | hc'
        · exact hle
        · exact hall c hc'
    · rw [if_neg hd]
      push_neg at hd
      obtain ⟨hmem, hle, hall⟩ := ih best m hm
      refine ⟨?_, hle, ?_⟩
      · rcases hmem with h | h
        · exact Or.inl h
        · exact Or.inr (List.mem_cons_of_mem c0 h)
      · intro c hc
        rcases List.mem_cons.1 hc with rfl | hc'
        · exact le_trans hle hd
        · exact hall c hc'

/-- C4: `findSlideToSlideTowards` always returns one of the slide centers,
minimizing `|progress − center + bias|` over all of them; in particular with
3 slides, 2 transitions (centers `0, 1/2, 1`) and bias `0`, progress `0.46`
selects `1/2` — the target the gravity animation then scrolls toward. -/
theorem find_slide_minimizes :
    (∀ (S T : ℕ) (p bias : ℝ), 0 < S → 0 < T → 0 ≤ p → p ≤ 1 →
      findSlideToSlideTowards S T p bias ∈ getAllSlideCenters S T ∧
      ∀ c ∈ getAllSlideCenters S T,
        |p - findSlideToSlideTowards S T p bias + bias| ≤ |p - c + bias|) ∧
    findSlideToSlideTowards 3 2 (46/100) 0 = 1/2 := by
  constructor
  · intro S T p bias hS hT h0 h1
    obtain ⟨n, rfl⟩ : ∃ n, S = n + 1 := ⟨S - 1, by omega⟩
    have hcenters : getAllSlideCenters (n + 1) T
        = getSlideCenterProgress T 0
          :: (List.range n).map (fun i => getSlideCenterProgress T (i + 1)) := by
      unfold getAllSlideCenters
      rw [List.range_succ_eq_map]
      simp [Function.comp]
    unfold findSlideToSlideTowards
    rw [hcenters]
    have hstep : findAux p bias
        (getSlideCenterProgress T 0
          :: (List.range n).map (fun i => getSlideCenterProgress T (i + 1)))
        0 none
        = findAux p bias
            ((List.range n).map (fun i => getSlideCenterProgress T (i + 1)))
            (getSlideCenterProgress T 0)
            (some |p - getSlideCenterProgress T 0 + bias|) := rfl
    rw [hstep]
    obtain ⟨hmem, hle, hall⟩ := findAux_min p bias
      ((List.range n).map (fun i => getSlideCenterProgress T (i + 1)))
      (getSlideCenterProgress T 0) _ rfl
    constructor
    · rcases hmem with h | h
      · rw [h]; exact List.mem_cons_self _ _
      · exact List.mem_cons_of_mem _ h
    · intro c hc
      rcases List.mem_cons.1 hc with rfl | hc'
      · exact hle
      · exact hall c hc'
  · have h0 : getSlideCenterProgress 2 0 = 0 := by
      unfold getSlideCenterProgress clamp
      norm_num
    have h1 : getSlideCenterProgress 2 1 = 1/2 := by
      unfold getSlideCenterProgress
      rw [show ((1 : ℕ) : ℝ) / ((2 : ℕ) : ℝ) = 1/2 by norm_num]
      exact clamp_eq_self _ 0 1 (by norm_num) (by norm_num)
    have h2c : getSlideCenterProgress 2 2 = 1 := by
      unfold getSlideCenterProgress
      rw [show ((2 : ℕ) : ℝ) / ((2 : ℕ) : ℝ) = 1 by norm_num]
      exact clamp_eq_self _ 0 1 (by norm_num) (by norm_num)
    have hlist : getAllSlideCenters 3 2 = [0, 1/2, 1] := by
      unfold getAllSlideCenters
      rw [show List.range 3 = [0, 1, 2] from rfl]
      simp [h0, h1, h2c]
    have e1 : |(46 : ℝ)/100 - 0 + 0| = 46/100 := by
      rw [show (46 : ℝ)/100 - 0 + 0 = 46/100 by ring,
        abs_of_nonneg (by norm_num)]
    have e2 : |(46 : ℝ)/100 - 1/2 + 0| = 4/100 := by
      rw [show (46 : ℝ)/100 - 1/2 + 0 = -(4/100) by ring, abs_neg,
        abs_of_nonneg (by norm_num)]
    have e3 : |(46 : ℝ)/100 - 1 + 0| = 54/100 := by
      rw [show (46 : ℝ)/100 - 1 + 0 = -(54/100) by ring, abs_neg,
        abs_of_nonneg (by norm_num)]
    show (findAux (46/100) 0 (getAllSlideCenters 3 2) 0 none).1 = 1/2
    rw [hlist]
    rw [show findAux ((46 : ℝ)/100) 0 [0, 1/2, 1] 0 none
        = findAux (46/100) 0 [1/2, 1] 0 (some |(46 : ℝ)/100 - 0 + 0|) from rfl,
      e1]
    rw [show findAux ((46 : ℝ)/100) 0 [1/2, 1] 0 (some (46/100))
        = if |(46 : ℝ)/100 - 1/2 + 0| < 46/100
          then findAux (46/100) 0 [1] (1/2) (some |(46 : ℝ)/100 - 1/2 + 0|)
          else findAux (46/100) 0 [1] 0 (some (46/100)) from rfl,
      e2, if_pos (by norm_num : (4 : ℝ)/100 < 46/100)]
    rw [show findAux ((46 : ℝ)/100) 0 [1] (1/2) (some (4/100))
        = if |(46 : ℝ)/100 - 1 + 0| < 4/100
          then findAux (46/100) 0 [] 1 (some |(46 : ℝ)/100 - 1 + 0|)
          else findAux (46/100) 0 [] (1/2) (some (4/100)) from rfl,
      e3, if_neg (by norm_num : ¬ (54 : ℝ)/100 < 4/100)]
    rfl

/-- C4 witness: the membership half of the theorem at `S = 3, T = 2,
p = 0.46, bias = 0`. -/
theorem find_slide_minimizes_witness :
    findSlideToSlideTowards 3 2 (46/100) 0 ∈ getAllSlideCenters 3 2 :=
  (find_slide_minimizes.1 3 2 (46/100) 0 (by norm_num) (by norm_num)
    (by norm_num) (by norm_num)).1

/-! ## Claim C3: inverse easing -/

/-- The easing curve at the midpoint. -/
theorem easeInOutCubic_half : easeInOutCubic (1/2) = 1/2 := by
  unfold easeInOutCubic
  rw [if_neg (by norm_num)]
  norm_num

/-- The easing curve at the right endpoint. -/
theorem easeInOutCubic_one : easeInOutCubic 1 = 1 := by
  unfold easeInOutCubic
  rw [if_neg (by norm_num)]
  norm_num

/-- On `[1/2, 1]` the easing curve is 3-Lipschitz (the slope at `1/2` is
`3`, decreasing to `0` at `1`). -/
theorem easeInOutCubic_lipschitz (a b : ℝ) (ha : 1/2 ≤ a) (hab : a ≤ b)
    (hb : b ≤ 1) :
    easeInOutCubic b - easeInOutCubic a ≤ 3 * (b - a) := by
  unfold easeInOutCubic
  rw [if_neg (by linarith), if_neg (by linarith)]
  have hu0 : (0 : ℝ) ≤ -2 * b + 2 := by linarith
  have hv0 : (0 : ℝ) ≤ -2 * a + 2 := by linarith
  have hkey : (0 : ℝ) ≤ ((-2 * a + 2) - (-2 * b + 2))
      * (3 - ((-2 * a + 2) * (-2 * a + 2) + (-2 * b + 2) * (-2 * a + 2)
          + (-2 * b + 2) * (-2 * b + 2))) := by
    apply mul_nonneg (by linarith)
    have h1 : (0 : ℝ) ≤ (1 - (-2 * a + 2)) * (1 + (-2 * a + 2)) :=
      mul_nonneg (by linarith) (by linarith)
    have h2 : (0 : ℝ) ≤ (1 - (-2 * b + 2)) * (1 + (-2 * b + 2)) :=
      mul_nonneg (by linarith) (by linarith)
    have h3 : (0 : ℝ) ≤ (1 - (-2 * b + 2)) * (-2 * a + 2) :=
      mul_nonneg (by linarith) hv0
    nlinarith [h1, h2, h3]
  nlinarith [hkey]

/-- Invariant of the binary-search loop for `y ∈ [1/2, 1]`: the bracket
stays inside `[1/2, 1]`, the easing values at its ends bracket `y`, and its
width halves each iteration. -/
theorem bsearchAux_inv (y : ℝ) (h1 : 1/2 ≤ y) (h2 : y ≤ 1) :
    ∀ n : ℕ,
      1/2 ≤ (bsearchAux y n).1 ∧
      (bsearchAux y n).1 ≤ (bsearchAux y n).2 ∧
      (bsearchAux y n).2 ≤ 1 ∧
      easeInOutCubic (bsearchAux y n).1 ≤ y ∧
      y ≤ easeInOutCubic (bsearchAux y n).2 ∧
      (bsearchAux y n).2 - (bsearchAux y n).1 = 1 / 2 ^ (n + 1) := by
  intro n
  induction n with
  | zero =>
    refine ⟨le_refl _, ?_, le_refl _, ?_, ?_, ?_⟩
    · show (1 : ℝ)/2 ≤ 1
      norm_num
    · show easeInOutCubic (1/2) ≤ y
      rw [easeInOutCubic_half]; exact h1
    · show y ≤ easeInOutCubic 1
      rw [easeInOutCubic_one]; exact h2
    · show (1 : ℝ) - 1/2 = 1 / 2 ^ (0 + 1)
      norm_num
  | succ n ih =>
    obtain ⟨hlo, hlh, hhi, helo, hehi, hw⟩ := ih
    have hstep : bsearchAux y (n + 1)
        = if easeInOutCubic (((bsearchAux y n).1 + (bsearchAux y n).2) / 2) < y
          then (((bsearchAux y n).1 + (bsearchAux y n).2) / 2, (bsearchAux y n).2)
          else ((bsearchAux y n).1,
            ((bsearchAux y n).1 + (bsearchAux y n).2) / 2) := rfl
    rw [hstep]
    by_cases hc :
        easeInOutCubic (((bsearchAux y n).1 + (bsearchAux y n).2) / 2) < y
    · rw [if_pos hc]
      dsimp only
      refine ⟨by linarith, by linarith, hhi, le_of_lt hc, hehi, ?_⟩
      have he : (bsearchAux y n).2 - ((bsearchAux y n).1 + (bsearchAux y n).2) / 2
          = ((bsearchAux y n).2 - (bsearchAux y n).1) / 2 := by ring
      rw [he, hw, pow_succ]
      ring
    · rw [if_neg hc]
      push_neg at hc
      dsimp only
      refine ⟨hlo, by linarith, by linarith, helo, hc, ?_⟩
      have he : ((bsearchAux y n).1 + (bsearchAux y n).2) / 2 - (bsearchAux y n).1
          = ((bsearchAux y n).2 - (bsearchAux y n).1) / 2 := by ring
      rw [he, hw, pow_succ]
      ring

/-- On `(0, 1/2)` the cube-root branch of `inverseEaseInOutCubic` is an
exact analytic inverse of the easing curve. -/
theorem inverse_ease_exact_first_half (y : ℝ) (hy0 : 0 < y) (hy2 : y < 1/2) :
    easeInOutCubic (inverseEaseInOutCubic y) = y := by
  have hinv : inverseEaseInOutCubic y = (y/4) ^ ((1 : ℝ)/3) := by
    unfold inverseEaseInOutCubic
    rw [if_neg (by linarith), if_neg (by linarith), if_pos hy2]
  rw [hinv]
  have hq : (0 : ℝ) < y/4 := by linarith
  have hcube : ((y/4) ^ ((1 : ℝ)/3)) ^ (3 : ℕ) = y/4 := by
    rw [← Real.rpow_natCast ((y/4) ^ ((1 : ℝ)/3)) 3, ← Real.rpow_mul hq.le]
    norm_num
  have hlt : (y/4) ^ ((1 : ℝ)/3) < 1/2 := by
    have h18 : ((1 : ℝ)/8) ^ ((1 : ℝ)/3) = 1/2 := by
      rw [show (1 : ℝ)/8 = (1/2 : ℝ) ^ (3 : ℕ) by norm_num,
        ← Real.rpow_natCast (1/2 : ℝ) 3,
        ← Real.rpow_mul (by norm_num : (0 : ℝ) ≤ 1/2)]
      norm_num
    calc (y/4) ^ ((1 : ℝ)/3) < ((1 : ℝ)/8) ^ ((1 : ℝ)/3) :=
          Real.rpow_lt_rpow hq.le (by linarith) (by norm_num)
      _ = 1/2 := h18
  unfold easeInOutCubic
  rw [if_pos hlt]
  have hr : 4 * ((y/4) ^ ((1 : ℝ)/3)) * ((y/4) ^ ((1 : ℝ)/3))
      * ((y/4) ^ ((1 : ℝ)/3)) = 4 * (((y/4) ^ ((1 : ℝ)/3)) ^ (3 : ℕ)) := by
    ring
  rw [hr, hcube]
  ring

/-- C3: `inverseEaseInOutCubic` is the exact analytic inverse on `(0, 1/2)`
(via cube root), and over the whole of `[0,1]` — including the
20-iteration binary-search branch on `[1/2, 1]` — the round-trip error
`|easeInOutCubic (inverseEaseInOutCubic y) − y|` is strictly below `2⁻²⁰`. -/
theorem inverse_ease_roundtrip :
    BINARY_SEARCH_ITERATIONS = 20 ∧
    (∀ y : ℝ, 0 < y → y < 1/2 →
      easeInOutCubic (inverseEaseInOutCubic y) = y) ∧
    (∀ y : ℝ, 0 ≤ y → y ≤ 1 →
      |easeInOutCubic (inverseEaseInOutCubic y) - y| < 1 / 2 ^ 20) := by
  refine ⟨rfl, fun y hy0 hy2 => inverse_ease_exact_first_half y hy0 hy2, ?_⟩
  intro y hy0 hy1
  by_cases hz : y ≤ 0
  · have hy : y = 0 := le_antisymm hz hy0
    subst hy
    have hi0 : inverseEaseInOutCubic 0 = 0 := by
      unfold inverseEaseInOutCubic
      rw [if_pos le_rfl]
    have he0 : easeInOutCubic 0 = 0 := by
      unfold easeInOutCubic
      rw [if_pos (by norm_num)]
      ring
    rw [hi0, he0]
    norm_num
  · push_neg at hz
    by_cases ho : 1 ≤ y
    · have hy : y = 1 := le_antisymm hy1 ho
      subst hy
      have hi1 : inverseEaseInOutCubic 1 = 1 := by
        unfold inverseEaseInOutCubic
        rw [if_neg (by norm_num), if_pos le_rfl]
      rw [hi1, easeInOutCubic_one]
      norm_num
    · push_neg at ho
      by_cases hh : y < 1/2
      · rw [inverse_ease_exact_first_half y hz hh]
        norm_num
      · push_neg at hh
        have hinv : inverseEaseInOutCubic y
            = ((bsearchAux y 20).1 + (bsearchAux y 20).2) / 2 := by
          unfold inverseEaseInOutCubic BINARY_SEARCH_ITERATIONS
          rw [if_neg (by linarith), if_neg (by linarith), if_neg (by linarith)]
        obtain ⟨hlo, hlh, hhi, helo, hehi, hw⟩ := bsearchAux_inv y hh hy1 20
        rw [hinv]
        set lo := (bsearchAux y 20).1 with hlodef
        set hi := (bsearchAux y 20).2 with hhidef
        have hml : (lo + hi) / 2 - lo = 1 / 2 ^ 22 := by
          have he : (lo + hi) / 2 - lo = (hi - lo) / 2 := by ring
          rw [he, hw]
          norm_num
        have hhm : hi - (lo + hi) / 2 = 1 / 2 ^ 22 := by
          have he : hi - (lo + hi) / 2 = (hi - lo) / 2 := by ring
          rw [he, hw]
          norm_num
        have hL1 : easeInOutCubic ((lo + hi) / 2) - easeInOutCubic lo
            ≤ 3 * ((lo + hi) / 2 - lo) :=
          easeInOutCubic_lipschitz lo ((lo + hi) / 2) hlo (by linarith)
            (by linarith)
        have hL2 : easeInOutCubic hi - easeInOutCubic ((lo + hi) / 2)
            ≤ 3 * (hi - (lo + hi) / 2) :=
          easeInOutCubic_lipschitz ((lo + hi) / 2) hi (by linarith)
            (by linarith) hhi
        have hc : (3 : ℝ) * (1 / 2 ^ 22) < 1 / 2 ^ 20 := by norm_num
        rw [abs_lt]
        constructor
        · rw [hml] at hL1
          rw [hhm] at hL2
          linarith
        · rw [hml] at hL1
          linarith

/-- C3 witness: the round-trip bound applied at `y = 0`. -/
theorem inverse_ease_roundtrip_witness :
    |easeInOutCubic (inverseEaseInOutCubic 0) - 0| < 1 / 2 ^ 20 :=
  inverse_ease_roundtrip.2.2 0 le_rfl (by norm_num)
